import Mathlib

/-!
Verification of the MCP_Server skill-execution core against its specification.

This file shallowly embeds the parts of the source that the specification
claims talk about:

* `src/core/executor.py` — `ExecutionEngine.sanitize_path`, `run_script`
* `src/core/uma_core.py` — `UMA.execute_tool_call`, `SkillRegistry.scan_skills`,
  `_generate_dir_hash`
* `src/core/session.py` — `get_or_create_conversation`, `append_message`,
  `_check_and_compress`, `_compress_history`
* `src/adapters/__init__.py` — `select_relevant_tools`
* `src/adapters/{openai,claude,gemini}_adapter.py` — `chat` tool-call loops

External effects (the OS filesystem, the spawned child process, the provider
SDK) are modelled as explicit inputs: a filesystem record, a process-outcome
record, and a provider oracle indexed by round-trip number.  Filesystem
touches and tool dispatches performed by an operation are additionally
returned as explicit logs, so ordering claims ("before any filesystem
access", "no subsequent call is dispatched") can be stated.
-/

namespace MCPServer

/-- Decidable equality for `Except` results, so that concrete runs of the
embedded operations can be checked by `decide`. -/
instance {ε α : Type} [DecidableEq ε] [DecidableEq α] : DecidableEq (Except ε α)
  | .ok a, .ok b =>
    if h : a = b then isTrue (by rw [h]) else isFalse (by intro hc; cases hc; exact h rfl)
  | .error a, .error b =>
    if h : a = b then isTrue (by rw [h]) else isFalse (by intro hc; cases hc; exact h rfl)
  | .ok _, .error _ => isFalse (by intro hc; cases hc)
  | .error _, .ok _ => isFalse (by intro hc; cases hc)

/-! ## Path model

Python `pathlib` paths are modelled as lists of components of an absolute
path.  `resolveComps` mirrors `Path.resolve()` on a symlink-free tree:
`.` and empty components vanish, `..` removes the previous component and is
a no-op at the root.  `renderPath` mirrors `str(Path(...))` for an absolute
path. -/

abbrev PathC := List String

/-- Python `s.split(sep)` for a one-character separator, over the
character list of the string (kernel-reducible, unlike `String.splitOn`). -/
def pySplitCharAux (sep : Char) : List Char → List Char → List String
  | [], acc => [String.mk acc.reverse]
  | c :: rest, acc =>
    if c = sep then String.mk acc.reverse :: pySplitCharAux sep rest []
    else pySplitCharAux sep rest (c :: acc)

def pySplitChar (sep : Char) (s : String) : List String :=
  pySplitCharAux sep s.data []

/-- Python `s.startswith(prefixStr)`. -/
def pyStartsWith (s prefixStr : String) : Bool :=
  prefixStr.data.isPrefixOf s.data

/-- Components of a path string, as produced by splitting on `/`
(`pathlib` drops empty components; `.`/`..` normalization happens in
`resolve`). -/
def parseComps (s : String) : List String :=
  (pySplitChar '/' s).filter (fun c => c ≠ "")

/-- `Path(s).is_absolute()` for POSIX strings. -/
def isAbsolute (s : String) : Bool := pyStartsWith s "/"

/-- `base / target` of `pathlib`: an absolute `target` replaces `base`. -/
def joinPath (base : PathC) (target : String) : List String :=
  if isAbsolute target then parseComps target else base ++ parseComps target

/-- `Path.resolve()` without symlinks: process `.` and `..` lexically
against the filesystem root. -/
def resolveComps (cs : List String) : PathC :=
  cs.foldl (fun acc c =>
    if c = "." then acc
    else if c = ".." then acc.dropLast
    else acc ++ [c]) []

/-- `str(path)` for an absolute POSIX path. -/
def renderPath (p : PathC) : String :=
  "/" ++ String.intercalate "/" p

/-! ## `ExecutionEngine.sanitize_path` (src/core/executor.py lines 15-26)

```python
abs_path = (self.skills_home / target_path).resolve()
if not str(abs_path).startswith(str(self.skills_home)):
    raise PermissionError(...)
return abs_path
```

The raised `PermissionError` is modelled as `Except.error` carrying the
message (without the Python quoting of the offending path). -/

def sanitize_path (skills_home : PathC) (target_path : String) : Except String PathC :=
  let abs_path := resolveComps (joinPath skills_home target_path)
  if pyStartsWith (renderPath abs_path) (renderPath skills_home) then
    .ok abs_path
  else
    .error ("Security Violation: Path " ++ target_path ++ " is outside of "
            ++ renderPath skills_home)

/-! ## Execution results

Python returns plain dicts; the keys that ever occur across the execution
paths are collected into one record, with `""` / `none` standing for an
absent key. -/

structure Res where
  status : String
  message : String := ""
  output : String := ""
  stdout : String := ""
  stderr : String := ""
  exit_code : Option Int := none
  guide : String := ""
deriving DecidableEq, Repr

/-- The host filesystem, as seen through fully resolved absolute paths. -/
structure Fs where
  pathExists : PathC → Bool
  readFile : PathC → String

/-- The behaviour of the spawned child process: how long it ran and, when it
finished on its own, its exit code and captured streams. -/
structure Proc where
  runtimeSeconds : Nat
  exitCode : Int
  stdoutRaw : String
  stderrRaw : String

/-- `subprocess ... communicate(input=args_json, timeout=30)` — the fixed
wall-clock bound of `run_script`. -/
def SCRIPT_TIMEOUT_SECONDS : Nat := 30

/-- Output of a sandbox operation: the returned dict, the resolved paths the
operation touched on the real filesystem (existence probes and reads, in
order), and whether `process.kill()` was invoked. -/
structure SandboxOut where
  result : Res
  accesses : List PathC
  killed : Bool
deriving DecidableEq, Repr

/-! ## `ExecutionEngine.run_script` (src/core/executor.py lines 71-175)

The three argument-passing channels (env vars, stdin, temp file) and the
temp-file cleanup only shape the child's input and are not observable in
any claim; they are absorbed into the abstract `Proc` describing the
child's behaviour.  The control flow — sanitize the skill directory, then
the script path, probe existence, spawn, classify the outcome — is embedded
one-to-one. -/

def run_script (fs : Fs) (proc : Proc) (skills_home : PathC)
    (skill_name script_relative_path : String) : SandboxOut :=
  match sanitize_path skills_home skill_name with
  | .error e => { result := { status := "security_violation", message := e },
                  accesses := [], killed := false }
  | .ok _skill_dir =>
    match sanitize_path skills_home (skill_name ++ "/scripts/" ++ script_relative_path) with
    | .error e => { result := { status := "security_violation", message := e },
                    accesses := [], killed := false }
    | .ok script_path =>
      if fs.pathExists script_path = false then
        { result := { status := "error",
                      message := "Script not found: " ++ script_relative_path },
          accesses := [script_path], killed := false }
      else if SCRIPT_TIMEOUT_SECONDS < proc.runtimeSeconds then
        -- subprocess.TimeoutExpired: process.kill(); return the timeout dict
        { result := { status := "error", message := "Execution Timeout (30s)" },
          accesses := [script_path], killed := true }
      else if proc.exitCode = 0 then
        { result := { status := "success", output := proc.stdoutRaw.trim,
                      exit_code := some 0 },
          accesses := [script_path], killed := false }
      else
        { result := { status := "failed",
                      message := "Script execution returned non-zero exit code.",
                      stdout := proc.stdoutRaw.trim, stderr := proc.stderrRaw.trim,
                      exit_code := some proc.exitCode },
          accesses := [script_path], killed := false }

/-! ## `UMA.execute_tool_call` (src/core/uma_core.py lines 73-111)

```python
script_path = (self.executor.skills_home / skill_name / "scripts" / "main.py")
if script_path.exists():
    return self.executor.run_script(skill_name, "main.py", arg_dict)
else:
    skill_md_path = self.executor.skills_home / skill_name / "SKILL.md"
    if skill_md_path.exists():
        content = skill_md_path.read_text(...)
        return {"status": "success", "type": "knowledge_guide", ..., "guide": content}
    else:
        return {"status": "error", "message": f"Skill ... not found."}
```

The permissive `json.loads` of `arguments` only shapes the data forwarded to
the child and is absorbed into `Proc`.  Note that both `.exists()` probes
and the `read_text` happen on the raw joined path, before any
`sanitize_path` call. -/

def knowledge_guide_message : String :=
  "This is a knowledge-type skill. No executable script found. Use the following guide to complete the task, then use an execution tool (e.g. mcp-python-executor) to run code if needed."

def execute_tool_call (fs : Fs) (proc : Proc) (skills_home : PathC)
    (skill_name : String) : SandboxOut :=
  let script_path := resolveComps (skills_home ++ parseComps (skill_name ++ "/scripts/main.py"))
  if fs.pathExists script_path then
    let out := run_script fs proc skills_home skill_name "main.py"
    { out with accesses := script_path :: out.accesses }
  else
    let skill_md_path := resolveComps (skills_home ++ parseComps (skill_name ++ "/SKILL.md"))
    if fs.pathExists skill_md_path then
      { result := { status := "success", message := knowledge_guide_message,
                    guide := fs.readFile skill_md_path },
        accesses := [script_path, skill_md_path, skill_md_path], killed := false }
    else
      { result := { status := "error",
                    message := "Skill " ++ skill_name ++ " not found." },
        accesses := [script_path, skill_md_path], killed := false }

/-! ## Session Memory (src/core/session.py)

The conversation store `self._conversations : Dict[str, list]` is modelled
as a lookup function.  The `MEMORY.md` side effects (`_log_compression_event`,
citation persistence) write to an external durable log and are not
observable through the store, so they are not modelled. -/

structure Msg where
  role : String
  content : String
deriving DecidableEq, Repr

abbrev Store := String → Option (List Msg)

/-- `_check_and_compress` threshold: `MAX_MESSAGES = 40`. -/
def MAX_MESSAGES : Nat := 40

/-- The synthetic summary message inserted by `_compress_history`. -/
def summary_content (n : Nat) : String :=
  "[System Memory: Previously discussed " ++ toString n
    ++ " messages. Context compressed to preserve token head room.]"

/-- `SessionManager._compress_history` (lines 91-116), as the pure history
transformation it performs before storing the result back. -/
def compress_history (history : List Msg) : List Msg :=
  if history.length ≤ 4 then history
  else
    let system_msgs := history.filter (fun m => m.role == "system")
    let chat_msgs := history.filter (fun m => !(m.role == "system"))
    let midpoint := max 1 (chat_msgs.length / 2)
    let old_msgs := chat_msgs.take midpoint
    let new_msgs := chat_msgs.drop midpoint
    system_msgs ++ [⟨"system", summary_content old_msgs.length⟩] ++ new_msgs

/-- `SessionManager._check_and_compress` (lines 77-89): reads the session
(`.get(session_id, [])`) and compresses in place past the threshold. -/
def check_and_compress (s : Store) (session_id : String) : Store :=
  match s session_id with
  | none => s
  | some history =>
    if MAX_MESSAGES < history.length then
      fun k => if k = session_id then some (compress_history history) else s k
    else s

/-- `SessionManager.get_or_create_conversation` (lines 46-53). -/
def get_or_create_conversation (s : Store) (session_id : String)
    (system_prompt : String) : Store :=
  match s session_id with
  | some _ => s
  | none =>
    let history : List Msg := if system_prompt = "" then [] else [⟨"system", system_prompt⟩]
    fun k => if k = session_id then some history else s k

/-- `SessionManager.append_message` (lines 55-75).

`history = self._conversations.get(session_id, [])` aliases the stored list
when the session exists — appending then mutates the store — but produces a
fresh, never-stored list when it does not, so in that case the store is left
untouched and the message is dropped. -/
def append_message (s : Store) (session_id role content : String) : Store :=
  match s session_id with
  | none => s
  | some history =>
    let s2 : Store := fun k =>
      if k = session_id then some (history ++ [⟨role, content⟩]) else s k
    check_and_compress s2 session_id

/-! Operation traces over the store, for stating reachability invariants. -/

inductive SessionOp
  | create (id prompt : String)
  | append (id role content : String)
deriving DecidableEq, Repr

def applyOp (s : Store) : SessionOp → Store
  | .create id prompt => get_or_create_conversation s id prompt
  | .append id role content => append_message s id role content

def runOps (ops : List SessionOp) : Store :=
  ops.foldl applyOp (fun _ => none)

/-- `true` for operations that never append a `system`-role message. -/
def opNonSystem : SessionOp → Bool
  | .create _ _ => true
  | .append _ role _ => role != "system"

/-- All system messages of a history stand before all other messages. -/
def sysPrefix (h : List Msg) : Bool :=
  (h.dropWhile (fun m => m.role == "system")).all (fun m => !(m.role == "system"))

/-! ## Tool-call orchestration (src/adapters/*.py)

Each adapter's `chat` drives provider round-trips.  The provider is
modelled as an oracle mapping the round-trip number (0-based) to the
provider's response; `uma.execute_tool_call` is the injected dependency
`exec`, mapping a tool name and serialized arguments to the returned dict
(of which only `status` and `risk_description` are inspected by the
adapters, so only those are carried).  The embedding returns, next to the
adapter's return value, a trace of what it did: how many round-trips it
made, which tool calls it dispatched in order, and which tool results it
appended to the provider-native message history. -/

structure ExecRes where
  status : String
  risk_description : Option String := none
  payload : String := ""
deriving DecidableEq, Repr

abbrev ToolExec := String → String → ExecRes

inductive ChatResult
  | success (content : String) (tool_calls_made : Nat)
  | requiresApproval (tool_name risk_description pending_args : String)
deriving DecidableEq, Repr

structure ChatTrace where
  roundTrips : Nat
  dispatched : List (String × String)
  appendedResults : List ExecRes
deriving DecidableEq, Repr

/-- `MAX_ITERATIONS = 10` in the Claude and Gemini adapters. -/
def MAX_ITERATIONS : Nat := 10

/-- `result.get("risk_description", "High-risk operation detected")`. -/
def riskOf (r : ExecRes) : String :=
  r.risk_description.getD "High-risk operation detected"

/-! ### OpenAI adapter (src/adapters/openai_adapter.py lines 97-151) -/

/-- One `chat.completions` response, reduced to the fields `chat` reads:
`finish_reason == "tool_calls"`, `message.tool_calls` as (name, arguments)
pairs, `message.content`. -/
structure OResp where
  finish_tool_calls : Bool
  tool_calls : List (String × String)
  content : String

/-- The `for tool_call in choice.message.tool_calls:` loop (lines 110-130).
Returns the approval interrupt (if any), the `tool_results` list built so
far when the loop stopped, and the calls actually handed to
`execute_tool_call`, in order. -/
def openai_dispatch (exec : ToolExec) :
    List (String × String) →
    Option (String × String × String) × List ExecRes × List (String × String)
  | [] => (none, [], [])
  | (fn_name, fn_args) :: rest =>
    let result := exec fn_name fn_args
    if result.status == "requires_approval" then
      (some (fn_name, riskOf result, fn_args), [], [(fn_name, fn_args)])
    else
      let (ap, rs, ds) := openai_dispatch exec rest
      (ap, result :: rs, (fn_name, fn_args) :: ds)

/-- `OpenAIAdapter.chat`, from the first `completions.create` on: one
response; if it requests tool calls, run them all, append the results to
`messages`, and make one final `completions.create`. -/
def openai_chat (exec : ToolExec) (oracle : Nat → OResp) : ChatResult × ChatTrace :=
  let choice := oracle 0
  if choice.finish_tool_calls && !choice.tool_calls.isEmpty then
    match openai_dispatch exec choice.tool_calls with
    | (some (name, risk, args), _, ds) =>
      (.requiresApproval name risk args,
       { roundTrips := 1, dispatched := ds, appendedResults := [] })
    | (none, tool_results, ds) =>
      let final := oracle 1
      (.success final.content tool_results.length,
       { roundTrips := 2, dispatched := ds, appendedResults := tool_results })
  else
    (.success choice.content 0,
     { roundTrips := 1, dispatched := [], appendedResults := [] })

/-! ### Claude adapter (src/adapters/claude_adapter.py lines 98-157) -/

/-- One `messages.create` response: either `stop_reason == "tool_use"` with
its `tool_use` blocks as (name, input) pairs (other block types are skipped
by the loop), or a final response with `content[0].text`. -/
inductive CResp
  | toolUse (blocks : List (String × String))
  | final (text : String)

/-- The `for block in response.content:` loop (lines 114-135); same shape
as the OpenAI dispatch loop, building `tool_results` blocks. -/
def claude_dispatch (exec : ToolExec) :
    List (String × String) →
    Option (String × String × String) × List ExecRes × List (String × String)
  | [] => (none, [], [])
  | (fn_name, fn_args) :: rest =>
    let result := exec fn_name fn_args
    if result.status == "requires_approval" then
      (some (fn_name, riskOf result, fn_args), [], [(fn_name, fn_args)])
    else
      let (ap, rs, ds) := claude_dispatch exec rest
      (ap, result :: rs, (fn_name, fn_args) :: ds)

/-- The capped-iterations message returned after the `for` loop. -/
def claude_cap_message : String :=
  "(已達最大工具呼叫次數 10 輪，強制結束)"

/-- The `for _ in range(MAX_ITERATIONS):` loop of `ClaudeAdapter.chat`
(lines 103-153).  `i` is the number of round-trips made so far, `fuel` the
remaining iterations, `count` the running `tool_calls_made`. -/
def claude_chat_go (exec : ToolExec) (oracle : Nat → CResp) :
    Nat → Nat → Nat → List (String × String) → List ExecRes → ChatResult × ChatTrace
  | i, 0, count, ds, ars =>
    (.success claude_cap_message count,
     { roundTrips := i, dispatched := ds, appendedResults := ars })
  | i, fuel + 1, count, ds, ars =>
    match oracle i with
    | .final text =>
      (.success text count,
       { roundTrips := i + 1, dispatched := ds, appendedResults := ars })
    | .toolUse blocks =>
      match claude_dispatch exec blocks with
      | (some (name, risk, args), _, d) =>
        (.requiresApproval name risk args,
         { roundTrips := i + 1, dispatched := ds ++ d, appendedResults := ars })
      | (none, tool_results, d) =>
        claude_chat_go exec oracle (i + 1) fuel (count + tool_results.length)
          (ds ++ d) (ars ++ tool_results)

def claude_chat (exec : ToolExec) (oracle : Nat → CResp) : ChatResult × ChatTrace :=
  claude_chat_go exec oracle 0 MAX_ITERATIONS 0 [] []

/-! ### Gemini adapter (src/adapters/gemini_adapter.py lines 148-202) -/

/-- One Gemini response, reduced to what the loop reads: the first
`function_call` part if any, else the response text. -/
inductive GResp
  | funCall (name args : String)
  | text (t : String)

/-- `response.text` with the `hasattr` fallback to `str(response)`. -/
def gemini_text : GResp → String
  | .text t => t
  | .funCall _ _ => "<function-call response>"

/-- The `for _ in range(MAX_ITERATIONS):` loop of `GeminiAdapter.chat`
(lines 157-202).  Each iteration handles at most the first function call of
the current response, sends its result back (`chat.send_message`, one more
round-trip), and re-checks the new response.  `rt` counts provider
round-trips made so far (the initial `send_message` included). -/
def gemini_chat_go (exec : ToolExec) (oracle : Nat → GResp) :
    GResp → Nat → Nat → Nat → List (String × String) → List ExecRes → ChatResult × ChatTrace
  | response, rt, 0, count, ds, ars =>
    (.success (gemini_text response) count,
     { roundTrips := rt, dispatched := ds, appendedResults := ars })
  | response, rt, fuel + 1, count, ds, ars =>
    match response with
    | .text t =>
      (.success t count,
       { roundTrips := rt, dispatched := ds, appendedResults := ars })
    | .funCall fn_name fn_args =>
      let result := exec fn_name fn_args
      if result.status == "requires_approval" then
        (.requiresApproval fn_name (riskOf result) fn_args,
         { roundTrips := rt, dispatched := ds ++ [(fn_name, fn_args)],
           appendedResults := ars })
      else
        gemini_chat_go exec oracle (oracle rt) (rt + 1) fuel (count + 1)
          (ds ++ [(fn_name, fn_args)]) (ars ++ [result])

/-- `GeminiAdapter.chat` from the initial `chat.send_message` on. -/
def gemini_chat (exec : ToolExec) (oracle : Nat → GResp) : ChatResult × ChatTrace :=
  gemini_chat_go exec oracle (oracle 0) 1 MAX_ITERATIONS 0 [] []

/-- `tool_calls_made`, when reported, matches the dispatch trace exactly. -/
def countExact : ChatResult × ChatTrace → Prop
  | (.success _ n, tr) => n = tr.dispatched.length
  | (.requiresApproval _ _ _, _) => True

/-! ## Relevance filter (src/adapters/__init__.py lines 158-213)

`select_relevant_tools` first normalizes both sides into token sets
(tokenize, strip stop words, canonicalize synonyms).  That normalization
pipeline (`_tokenize`, `_normalize_synonym`, `_STOP_WORDS`) is shared
verbatim between the query and the tools, and the claims quantify over the
resulting normalized token sets, so the embedding takes the query's
normalized token set `query_words` and the per-tool normalized token set
`tool_tokens` (covering `get_tool_tokens ∘ get_tool_text`) as inputs, and
embeds the two-phase selection over them. -/

/-- Phase 1 matched set: tools whose token set intersects the query's
(`if query_words & tool_tokens:`), in discovery order. -/
def phase_a_matched {τ : Type} (query_words : Finset String)
    (tool_tokens : τ → Finset String) (all_tools : List τ) : List τ :=
  all_tools.filter (fun t => decide (query_words ∩ tool_tokens t).Nonempty)

def select_relevant_tools {τ : Type} (query_words : Finset String)
    (tool_tokens : τ → Finset String) (all_tools : List τ)
    (max_tools : Nat) : List τ :=
  -- Phase 1: keyword matching (the single loop filling `matched`/`unmatched`)
  let part := all_tools.partition (fun t => decide (query_words ∩ tool_tokens t).Nonempty)
  let matched := part.1
  let unmatched := part.2
  if max_tools ≤ matched.length then
    matched.take max_tools
  else
    -- Phase 2: score unmatched tools by overlap; stable sort, descending
    let scored := unmatched.map (fun t => ((query_words ∩ tool_tokens t).card, t))
    let sorted := scored.mergeSort (fun a b => b.1 ≤ a.1)
    (matched ++ sorted.map Prod.snd).take max_tools

/-! ## Skill Store (src/core/uma_core.py, `SkillRegistry`)

Skill bundle trees are modelled as named entries that are either files with
string content or subdirectories. -/

inductive FsNode
  | file (content : String)
  | dir (entries : List (String × FsNode))

/-- Look a file up by name among a directory's entries. -/
def getFile (entries : List (String × FsNode)) (name : String) : Option String :=
  match entries.find? (fun e => e.1 == name) with
  | some (_, .file c) => some c
  | _ => none

mutual

/-- `SkillRegistry._generate_dir_hash` (lines 205-219): the byte stream fed
to the SHA-256 object by `os.walk` — for each directory, top-down, every
file sorted by name contributes its name then its content.  The stream
itself stands for the digest (the digest is a fixed injective-in-practice
function of this stream, so table equality claims are unaffected). -/
def dir_hash_stream : FsNode → List String
  | .file _ => []
  | .dir entries =>
    (((entries.filterMap (fun e =>
        match e.2 with
        | .file c => some (e.1, c)
        | .dir _ => none)).mergeSort (fun a b => a.1 ≤ b.1)).flatMap
      (fun p => [p.1, p.2]))
    ++ subdirs_hash_stream entries

def subdirs_hash_stream : List (String × FsNode) → List String
  | [] => []
  | (_, n) :: rest => dir_hash_stream n ++ subdirs_hash_stream rest

end

/-- A registered skill, reduced to the fields the claims observe: the
content hash (`metadata["_internal_hash"]`) and the bundle body
(`parts[2].strip()`). -/
structure SkillEntry where
  internal_hash : List String
  raw_md : String
deriving DecidableEq, Repr

abbrev SkillTable := String → Option SkillEntry

/-- What `_register_skill` (lines 141-184) would store for one bundle:
`none` when the bundle is skipped (no front-matter fence, fewer than three
`---`-separated parts, or `yaml.safe_load`/later processing raising —
abstracted by the `yamlOk` predicate on `parts[1]`). -/
def skill_write (yamlOk : String → Bool) (entries : List (String × FsNode)) :
    Option SkillEntry :=
  match getFile entries "SKILL.md" with
  | none => none
  | some content =>
    if !content.startsWith "---" then none
    else
      let parts := content.splitOn "---"
      if parts.length < 3 then none
      else if yamlOk (parts.getD 1 "") then
        some { internal_hash := dir_hash_stream (.dir entries),
               raw_md := (parts.getD 2 "").trim }
      else none

/-- `self.skills[skill_name] = {...}` for one scanned directory, keyed by
the case-folded directory name. -/
def register_skill (yamlOk : String → Bool) (tbl : SkillTable)
    (dirname : String) (entries : List (String × FsNode)) : SkillTable :=
  match skill_write yamlOk entries with
  | none => tbl
  | some entry => fun k => if k = dirname.toLower then some entry else tbl k

/-- The skills root: whether it exists and its child entries in `iterdir`
order. -/
structure SkillsRoot where
  rootExists : Bool
  dirs : List (String × FsNode)

/-- `SkillRegistry.scan_skills` (lines 124-139): iterate the root's
children; for each directory that has a `SKILL.md`, parse and register it
into the (not previously cleared) table.  `_regenerate_manifest` only
writes an external advisory file and is not modelled. -/
def scan_step (yamlOk : String → Bool) (t : SkillTable) (e : String × FsNode) : SkillTable :=
  match e.2 with
  | .file _ => t
  | .dir entries =>
    if (getFile entries "SKILL.md").isSome then
      register_skill yamlOk t e.1 entries
    else t

def scan_skills (yamlOk : String → Bool) (root : SkillsRoot)
    (tbl : SkillTable) : SkillTable :=
  if !root.rootExists then tbl
  else root.dirs.foldl (scan_step yamlOk) tbl

/-! # Theorems -/

/-- C10: `sanitize_path p` returns the resolved `skills_home / p` exactly
when the rendered resolved path string-starts-with the rendered skills
root, and raises (`PermissionError`, modelled as `.error`) otherwise; in
particular a path resolving into the sibling directory `/home/user/skills2`
of the root `/home/user/skills` is accepted as confined, because the check
is a plain string-prefix test. -/
theorem sanitize_path_is_string_prefix_check :
    (∀ (skills_home : PathC) (p : String),
      (sanitize_path skills_home p = .ok (resolveComps (joinPath skills_home p))
        ↔ pyStartsWith (renderPath (resolveComps (joinPath skills_home p)))
            (renderPath skills_home) = true)
      ∧ (pyStartsWith (renderPath (resolveComps (joinPath skills_home p)))
            (renderPath skills_home) = false →
          sanitize_path skills_home p
            = .error ("Security Violation: Path " ++ p ++ " is outside of "
                      ++ renderPath skills_home)))
    ∧ sanitize_path ["home", "user", "skills"] "../skills2/secret.txt"
        = .ok ["home", "user", "skills2", "secret.txt"] := by
  refine ⟨fun skills_home p => ?_, by decide⟩
  by_cases hc : pyStartsWith (renderPath (resolveComps (joinPath skills_home p)))
      (renderPath skills_home) = true
  · simp [sanitize_path, hc]
  · simp only [Bool.not_eq_true] at hc
    simp [sanitize_path, hc]

/-- Closed witness for `sanitize_path_is_string_prefix_check`: the rejecting
branch at the spec's own traversal input. -/
theorem sanitize_path_is_string_prefix_check_witness :
    pyStartsWith (renderPath (resolveComps (joinPath ["srv", "skills"] "../../etc/passwd")))
        (renderPath ["srv", "skills"]) = false
    ∧ sanitize_path ["srv", "skills"] "../../etc/passwd"
        = .error ("Security Violation: Path ../../etc/passwd is outside of "
                  ++ renderPath ["srv", "skills"]) :=
  ⟨by decide,
   (sanitize_path_is_string_prefix_check.1 ["srv", "skills"] "../../etc/passwd").2 (by decide)⟩

/-- C1 (refuted — code bug): the tool-call execution path
`UMA.execute_tool_call` does not reject an escaping skill id with a
`security_violation` result before filesystem access.  For the spec's own
scenario id `"../../etc"` (no script, no manifest at the escaped location)
it probes two resolved paths outside the skills root and answers with a
generic `"error"` status; worse, when a `SKILL.md` exists at the escaped
location, its contents are read and returned as a knowledge guide with
status `"success"`.  The sanitization only happens inside `run_script`,
after `execute_tool_call` has already touched the escaped paths. -/
theorem execute_tool_call_probes_before_any_check :
    ((execute_tool_call ⟨fun _ => false, fun _ => ""⟩ ⟨0, 0, "", ""⟩
        ["home", "mcp", "skills"] "../../etc").result.status = "error"
      ∧ (execute_tool_call ⟨fun _ => false, fun _ => ""⟩ ⟨0, 0, "", ""⟩
          ["home", "mcp", "skills"] "../../etc").result.status ≠ "security_violation"
      ∧ (execute_tool_call ⟨fun _ => false, fun _ => ""⟩ ⟨0, 0, "", ""⟩
          ["home", "mcp", "skills"] "../../etc").accesses
          = [["home", "etc", "scripts", "main.py"], ["home", "etc", "SKILL.md"]]
      ∧ ((execute_tool_call ⟨fun _ => false, fun _ => ""⟩ ⟨0, 0, "", ""⟩
          ["home", "mcp", "skills"] "../../etc").accesses.all
            (fun pth => !pyStartsWith (renderPath pth) (renderPath ["home", "mcp", "skills"])))
          = true)
    ∧ ((execute_tool_call
          ⟨fun pth => decide (pth = ["home", "mcp", "outside", "SKILL.md"]), fun _ => "TOP-SECRET"⟩
          ⟨0, 0, "", ""⟩ ["home", "mcp", "skills"] "../outside").result.status = "success"
      ∧ (execute_tool_call
          ⟨fun pth => decide (pth = ["home", "mcp", "outside", "SKILL.md"]), fun _ => "TOP-SECRET"⟩
          ⟨0, 0, "", ""⟩ ["home", "mcp", "skills"] "../outside").result.guide
          = "TOP-SECRET") := by
  decide

/-- C6: a script execution whose child process outlives the fixed
30-second wall-clock bound is forcibly killed, and `run_script` returns the
timeout-tagged result, whose status differs from the `"failed"` status that
classifies nonzero exit codes. -/
theorem run_script_timeout_kills_and_tags (fs : Fs) (skills_home script_path : PathC)
    (skill_name rel : String) (proc proc2 : Proc)
    (hok : ∃ d, sanitize_path skills_home skill_name = .ok d)
    (hok2 : sanitize_path skills_home (skill_name ++ "/scripts/" ++ rel) = .ok script_path)
    (hex : fs.pathExists script_path = true)
    (ht : SCRIPT_TIMEOUT_SECONDS < proc.runtimeSeconds)
    (h2a : proc2.runtimeSeconds ≤ SCRIPT_TIMEOUT_SECONDS)
    (h2b : proc2.exitCode ≠ 0) :
    (run_script fs proc skills_home skill_name rel).killed = true
    ∧ (run_script fs proc skills_home skill_name rel).result
        = { status := "error", message := "Execution Timeout (30s)" }
    ∧ (run_script fs proc2 skills_home skill_name rel).result.status = "failed"
    ∧ (run_script fs proc skills_home skill_name rel).result.status
        ≠ (run_script fs proc2 skills_home skill_name rel).result.status := by
  obtain ⟨d, hd⟩ := hok
  have h2a' : ¬ SCRIPT_TIMEOUT_SECONDS < proc2.runtimeSeconds := Nat.not_lt.mpr h2a
  refine ⟨?_, ?_, ?_, ?_⟩ <;>
    simp [run_script, hd, hok2, hex, ht, h2a', h2b]

/-- Closed witness for `run_script_timeout_kills_and_tags` at a concrete
one-skill filesystem, a 60-second hung child and a 1-second failing child. -/
theorem run_script_timeout_kills_and_tags_witness :
    (run_script ⟨fun pth => decide (pth = ["srv", "skills", "sk", "scripts", "main.py"]), fun _ => ""⟩
        ⟨60, 0, "", ""⟩ ["srv", "skills"] "sk" "main.py").killed = true
    ∧ (run_script ⟨fun pth => decide (pth = ["srv", "skills", "sk", "scripts", "main.py"]), fun _ => ""⟩
        ⟨60, 0, "", ""⟩ ["srv", "skills"] "sk" "main.py").result
        = { status := "error", message := "Execution Timeout (30s)" }
    ∧ (run_script ⟨fun pth => decide (pth = ["srv", "skills", "sk", "scripts", "main.py"]), fun _ => ""⟩
        ⟨1, 2, "boom", "trace"⟩ ["srv", "skills"] "sk" "main.py").result.status = "failed"
    ∧ (run_script ⟨fun pth => decide (pth = ["srv", "skills", "sk", "scripts", "main.py"]), fun _ => ""⟩
        ⟨60, 0, "", ""⟩ ["srv", "skills"] "sk" "main.py").result.status
        ≠ (run_script ⟨fun pth => decide (pth = ["srv", "skills", "sk", "scripts", "main.py"]), fun _ => ""⟩
          ⟨1, 2, "boom", "trace"⟩ ["srv", "skills"] "sk" "main.py").result.status :=
  run_script_timeout_kills_and_tags
    ⟨fun pth => decide (pth = ["srv", "skills", "sk", "scripts", "main.py"]), fun _ => ""⟩
    ["srv", "skills"] ["srv", "skills", "sk", "scripts", "main.py"] "sk" "main.py"
    ⟨60, 0, "", ""⟩ ⟨1, 2, "boom", "trace"⟩
    ⟨["srv", "skills", "sk"], by decide⟩ (by decide) (by decide) (by decide) (by decide)
    (by decide)

/-- C9 (refuted — code bug): `append_message` on a session id not present
in the store does not create the session; `history = ...get(session_id, [])`
binds a fresh list that is mutated and then dropped, so the store is left
untouched and the appended message is silently lost. -/
theorem append_message_on_missing_session_drops_message :
    (append_message (fun _ => none) "s1" "user" "hello") "s1" = none
    ∧ ∀ k, (append_message (fun _ => none) "s1" "user" "hello") k = none :=
  ⟨rfl, fun _ => rfl⟩

/-- A store holding one session of forty system-role messages, used to
refute the strict-decrease part of the compaction claim. -/
def allSystemStore : Store := fun k =>
  if k = "s" then some (List.replicate 40 ⟨"system", "p"⟩) else none

/-- C4 (counterexample): compaction does not always strictly decrease the
message count.  Appending a forty-first system-role message to a session of
forty system messages triggers compaction (41 > 40), which retains all 41
system messages and adds the synthetic summary, growing the session to 42
messages — `midpoint = max(1, 0)` fires on an empty non-system list. -/
theorem compaction_can_grow_session :
    ((append_message allSystemStore "s" "system" "p") "s").map List.length = some 42
    ∧ ¬ (42 < 41) := by
  exact ⟨by decide, by omega⟩

/-- C4 (amended): for a session that exceeds the 40-message threshold after
an append (`h1` the history including the appended message, `sys` its
system messages, `chat` its non-system messages) and holds at least four
non-system messages, compaction keeps all system messages (in order, as a
prefix), keeps the most recent half of the non-system messages verbatim (as
a suffix), replaces the older half by a single synthetic system message,
and strictly decreases the message count.  The counterexample
`compaction_can_grow_session` shows the four-non-system-message minimum
cannot be dropped: a reachable session with fewer can grow by one instead. -/
theorem append_compaction_retains_and_shrinks (s : Store) (id role content : String)
    (h h1 sys chat : List Msg)
    (hs : s id = some h)
    (hh1 : h1 = h ++ [Msg.mk role content])
    (hsysdef : sys = h1.filter (fun m => m.role == "system"))
    (hchatdef : chat = h1.filter (fun m => !(m.role == "system")))
    (hth : MAX_MESSAGES < h1.length)
    (hchat : 4 ≤ chat.length) :
    ∃ h2, (append_message s id role content) id = some h2
      ∧ sys <+: h2
      ∧ chat.drop (chat.length / 2) <:+ h2
      ∧ h2.length = sys.length + 1 + (chat.length - chat.length / 2)
      ∧ h2.length < h1.length := by
  have hpart : h1.length = sys.length + chat.length := by
    rw [hsysdef, hchatdef]
    exact List.length_eq_length_filter_add _
  have hmid : max 1 (chat.length / 2) = chat.length / 2 := by omega
  have hcomp : compress_history h1
      = sys ++ [⟨"system", summary_content (chat.take (chat.length / 2)).length⟩]
        ++ chat.drop (chat.length / 2) := by
    rw [compress_history]
    have hn4 : ¬ h1.length ≤ 4 := by
      have : MAX_MESSAGES = 40 := rfl
      omega
    rw [if_neg hn4]
    simp only [← hsysdef, ← hchatdef, hmid]
  have hlook : (if id = id then some (h ++ [Msg.mk role content]) else s id) = some h1 := by
    rw [if_pos rfl, hh1]
  refine ⟨compress_history h1, ?_, ?_, ?_, ?_, ?_⟩
  · rw [append_message, hs]
    show (check_and_compress
        (fun k => if k = id then some (h ++ [Msg.mk role content]) else s k) id) id
      = some (compress_history h1)
    rw [check_and_compress]
    try dsimp only
    rw [hlook]
    try dsimp only
    rw [if_pos hth]
    simp
  · rw [hcomp, List.append_assoc]
    exact List.prefix_append _ _
  · rw [hcomp]
    exact List.suffix_append _ _
  · rw [hcomp]
    simp only [List.length_append, List.length_cons, List.length_nil, List.length_drop]
    try omega
  · rw [hcomp]
    simp only [List.length_append, List.length_cons, List.length_nil, List.length_drop]
    try omega

/-- Closed witness for `append_compaction_retains_and_shrinks`: a session of
one system prompt and thirty-nine user messages receiving a fortieth user
message. -/
theorem append_compaction_retains_and_shrinks_witness :
    ∃ h2, (append_message
        (fun k => if k = "w" then some (Msg.mk "system" "p" :: List.replicate 39 (Msg.mk "user" "u")) else none)
        "w" "user" "x") "w" = some h2
      ∧ [Msg.mk "system" "p"] <+: h2
      ∧ (List.replicate 39 (Msg.mk "user" "u") ++ [Msg.mk "user" "x"]).drop
          ((List.replicate 39 (Msg.mk "user" "u") ++ [Msg.mk "user" "x"]).length / 2) <:+ h2
      ∧ h2.length = ([Msg.mk "system" "p"] : List Msg).length + 1
          + ((List.replicate 39 (Msg.mk "user" "u") ++ [Msg.mk "user" "x"]).length
             - (List.replicate 39 (Msg.mk "user" "u") ++ [Msg.mk "user" "x"]).length / 2)
      ∧ h2.length < ((Msg.mk "system" "p" :: List.replicate 39 (Msg.mk "user" "u"))
          ++ [Msg.mk "user" "x"]).length :=
  append_compaction_retains_and_shrinks
    (fun k => if k = "w" then some (Msg.mk "system" "p" :: List.replicate 39 (Msg.mk "user" "u")) else none)
    "w" "user" "x"
    (Msg.mk "system" "p" :: List.replicate 39 (Msg.mk "user" "u"))
    ((Msg.mk "system" "p" :: List.replicate 39 (Msg.mk "user" "u")) ++ [Msg.mk "user" "x"])
    [Msg.mk "system" "p"]
    (List.replicate 39 (Msg.mk "user" "u") ++ [Msg.mk "user" "x"])
    (by decide) (by decide) (by decide) (by decide) (by decide) (by decide)

/-- Operation trace reaching a compacted session: one `getOrCreate` with a
system prompt followed by forty user-message appends. -/
def twoSystemOps : List SessionOp :=
  .create "s" "sys" :: List.replicate 40 (.append "s" "user" "m")

/-- C5 (counterexample): a session reachable through `getOrCreate` and
`append` alone holds two system messages after its first compaction — the
original prompt plus the synthetic summary that `_compress_history` inserts
with role `system` — refuting the at-most-one-system-message invariant. -/
theorem reachable_session_with_two_system_messages :
    ((runOps twoSystemOps) "s").map
        (fun h => (h.filter (fun m => m.role == "system")).length) = some 2
    ∧ ¬ (2 ≤ 1) := by
  exact ⟨by decide, by omega⟩

/-- Every message of `a` is a system message and none of `b` is, so the
system messages of `a ++ b` form a prefix. -/
theorem sysPrefix_of_parts (a b : List Msg)
    (ha : ∀ m ∈ a, (m.role == "system") = true)
    (hb : ∀ m ∈ b, (m.role == "system") = false) :
    sysPrefix (a ++ b) = true := by
  induction a with
  | nil =>
    simp only [List.nil_append, sysPrefix]
    cases b with
    | nil => rfl
    | cons m t =>
      rw [List.dropWhile_cons]
      rw [hb m (List.mem_cons_self m t)]
      simp only [Bool.false_eq_true, if_false, List.all_cons, Bool.and_eq_true]
      refine And.intro ?_ ?_
      · rw [hb m (List.mem_cons_self m t)]
        rfl
      · rw [List.all_eq_true]
        intro x hx
        rw [hb x (List.mem_cons_of_mem _ hx)]
        rfl
  | cons a0 t ih =>
    simp only [List.cons_append, sysPrefix, List.dropWhile_cons]
    rw [ha a0 (List.mem_cons_self a0 t)]
    simp only [if_true]
    exact ih (fun m hm => ha m (List.mem_cons_of_mem _ hm))

/-- Appending a non-system message preserves the system-prefix shape. -/
theorem sysPrefix_append_nonsystem (h : List Msg) (m : Msg)
    (hp : sysPrefix h = true) (hm : (m.role == "system") = false) :
    sysPrefix (h ++ [m]) = true := by
  induction h with
  | nil =>
    exact sysPrefix_of_parts [] [m] (by simp) (by
      intro x hx
      rw [List.mem_singleton] at hx
      rw [hx, hm])
  | cons a t ih =>
    by_cases ha : (a.role == "system") = true
    · simp only [sysPrefix, List.dropWhile_cons, ha, if_true] at hp
      simp only [List.cons_append, sysPrefix, List.dropWhile_cons, ha, if_true]
      exact ih hp
    · rw [Bool.not_eq_true] at ha
      simp only [sysPrefix, List.dropWhile_cons, ha, Bool.false_eq_true, if_false,
        List.all_cons, Bool.and_eq_true] at hp
      simp only [List.cons_append, sysPrefix, List.dropWhile_cons, ha, Bool.false_eq_true,
        if_false, List.all_cons, Bool.and_eq_true]
      refine ⟨hp.1, ?_⟩
      rw [List.all_eq_true] at hp ⊢
      intro x hx
      rw [List.mem_append] at hx
      rcases hx with hx | hx
      · exact hp.2 x hx
      · rw [List.mem_singleton] at hx
        rw [hx, hm]
        rfl

/-- `_compress_history` preserves the system-prefix shape: it emits all
system messages, then the synthetic system summary, then only non-system
messages. -/
theorem sysPrefix_compress_history (h : List Msg) (hp : sysPrefix h = true) :
    sysPrefix (compress_history h) = true := by
  rw [compress_history]
  by_cases hlen : h.length ≤ 4
  · rw [if_pos hlen]; exact hp
  · rw [if_neg hlen]
    refine sysPrefix_of_parts _ _ ?_ ?_
    · intro m hm
      rw [List.mem_append] at hm
      rcases hm with hm | hm
      · exact (List.mem_filter.mp hm).2
      · rw [List.mem_singleton] at hm
        rw [hm]
        rfl
    · intro m hm
      have := (List.mem_filter.mp (List.mem_of_mem_drop hm)).2
      rw [Bool.not_eq_eq_eq_not] at this
      exact this

/-- The store-wide invariant: every stored history is system-prefix shaped. -/
def StoreSysPrefix (s : Store) : Prop :=
  ∀ id h, s id = some h → sysPrefix h = true

theorem storeSysPrefix_check_and_compress (s : Store) (id : String)
    (hs : StoreSysPrefix s) : StoreSysPrefix (check_and_compress s id) := by
  intro k h2
  rw [check_and_compress]
  cases hsk : s id with
  | none => exact hs k h2
  | some history =>
    try dsimp only
    by_cases hlen : MAX_MESSAGES < history.length
    · rw [if_pos hlen]
      by_cases hk : k = id
      · rw [if_pos hk]
        intro he
        cases he
        exact sysPrefix_compress_history history (hs id history hsk)
      · rw [if_neg hk]
        exact hs k h2
    · rw [if_neg hlen]
      exact hs k h2

theorem storeSysPrefix_applyOp (s : Store) (op : SessionOp)
    (hs : StoreSysPrefix s) (hop : opNonSystem op = true) :
    StoreSysPrefix (applyOp s op) := by
  cases op with
  | create id prompt =>
    intro k h2
    rw [applyOp, get_or_create_conversation]
    cases hsk : s id with
    | some h0 => exact hs k h2
    | none =>
      try dsimp only
      by_cases hk : k = id
      · rw [if_pos hk]
        intro he
        cases he
        by_cases hpr : prompt = ""
        · rw [if_pos hpr]; rfl
        · rw [if_neg hpr]; rfl
      · rw [if_neg hk]
        exact hs k h2
  | append id role content =>
    rw [applyOp, append_message]
    cases hsk : s id with
    | none => exact hs
    | some history =>
      try dsimp only
      refine storeSysPrefix_check_and_compress _ id ?_
      intro k h2
      try dsimp only
      by_cases hk : k = id
      · rw [if_pos hk]
        intro he
        cases he
        refine sysPrefix_append_nonsystem history ⟨role, content⟩ (hs id history hsk) ?_
        simp only [opNonSystem, bne_iff_ne, ne_eq] at hop
        simp only [beq_eq_false_iff_ne, ne_eq]
        exact hop
      · rw [if_neg hk]
        exact hs k h2

/-- C5 (amended): through `getOrCreate`, compaction, and `append` restricted
to non-system roles, every reachable session keeps all of its system
messages at the front (as a prefix of the history).  The at-most-one part
of the original invariant is refuted by
`reachable_session_with_two_system_messages`: each compaction may add one
synthetic system message behind the original prompt. -/
theorem reachable_sessions_keep_system_messages_first (ops : List SessionOp)
    (hops : ops.all opNonSystem = true) :
    ∀ id h, runOps ops id = some h → sysPrefix h = true := by
  suffices hgen : ∀ (ops' : List SessionOp) (s : Store), ops'.all opNonSystem = true →
      StoreSysPrefix s → StoreSysPrefix (ops'.foldl applyOp s) by
    exact hgen ops (fun _ => none) hops (fun _ _ h => by cases h)
  intro ops'
  induction ops' with
  | nil => exact fun s _ hs => hs
  | cons op rest ih =>
    intro s hall hs
    rw [List.all_cons, Bool.and_eq_true] at hall
    rw [List.foldl_cons]
    exact ih (applyOp s op) hall.2 (storeSysPrefix_applyOp s op hs hall.1)

/-- Closed witness for `reachable_sessions_keep_system_messages_first` on a
two-operation trace. -/
theorem reachable_sessions_keep_system_messages_first_witness :
    sysPrefix [Msg.mk "system" "p", Msg.mk "user" "hi"] = true :=
  reachable_sessions_keep_system_messages_first
    [.create "s" "p", .append "s" "user" "hi"] (by decide)
    "s" [Msg.mk "system" "p", Msg.mk "user" "hi"] (by decide)

/-- C7: every tool whose normalized token set shares at least one token
with the query's normalized token set is in the Phase-A matched set of
`select_relevant_tools`, and whenever the matched count reaches `max`, the
selection is exactly the first `max` matched tools in discovery order. -/
theorem select_relevant_tools_phase_a_complete {τ : Type} (query_words : Finset String)
    (tool_tokens : τ → Finset String) (all_tools : List τ) (max_tools : Nat) :
    (∀ t ∈ all_tools, (query_words ∩ tool_tokens t).Nonempty →
        t ∈ phase_a_matched query_words tool_tokens all_tools)
    ∧ (max_tools ≤ (phase_a_matched query_words tool_tokens all_tools).length →
        select_relevant_tools query_words tool_tokens all_tools max_tools
          = (phase_a_matched query_words tool_tokens all_tools).take max_tools) := by
  constructor
  · intro t ht hshare
    rw [phase_a_matched, List.mem_filter]
    exact ⟨ht, decide_eq_true hshare⟩
  · intro hge
    rw [select_relevant_tools]
    simp only [List.partition_eq_filter_filter]
    rw [if_pos]
    · rfl
    · exact hge

/-- Closed witness for `select_relevant_tools_phase_a_complete`: one of two
tools shares the token `alpha` with the query and is selected first. -/
def c7_tool_tokens : Nat → Finset String :=
  fun n => if n = 0 then {"alpha"} else ∅

theorem select_relevant_tools_phase_a_complete_witness :
    0 ∈ phase_a_matched {"alpha"} c7_tool_tokens [0, 1]
    ∧ select_relevant_tools {"alpha"} c7_tool_tokens [0, 1] 1
        = (phase_a_matched {"alpha"} c7_tool_tokens [0, 1]).take 1 :=
  ⟨(select_relevant_tools_phase_a_complete {"alpha"} c7_tool_tokens [0, 1] 1).1
      0 (by decide) ⟨"alpha", by decide⟩,
   (select_relevant_tools_phase_a_complete {"alpha"} c7_tool_tokens [0, 1] 1).2 (by decide)⟩

/-- The table write one scanned root entry performs, as a key/value pair:
`none` when the entry is a plain file, has no `SKILL.md`, or fails to
parse. -/
def entry_write (yamlOk : String → Bool) (e : String × FsNode) :
    Option (String × SkillEntry) :=
  match e.2 with
  | .file _ => none
  | .dir entries =>
    if (getFile entries "SKILL.md").isSome then
      match skill_write yamlOk entries with
      | none => none
      | some v => some (e.1.toLower, v)
    else none

theorem scan_step_eq_write (yamlOk : String → Bool) (t : SkillTable)
    (e : String × FsNode) :
    scan_step yamlOk t e
      = match entry_write yamlOk e with
        | none => t
        | some (k, v) => fun x => if x = k then some v else t x := by
  obtain ⟨name, node⟩ := e
  cases node with
  | file c => rfl
  | dir entries =>
    rw [scan_step, entry_write]
    try dsimp only
    by_cases hmd : (getFile entries "SKILL.md").isSome
    · rw [if_pos hmd, if_pos hmd, register_skill]
      cases skill_write yamlOk entries with
      | none => rfl
      | some v => rfl
    · rw [if_neg hmd, if_neg hmd]

/-- The last (winning) write a scan performs for a given key, derived from
the entries alone. -/
def last_write (yamlOk : String → Bool) : List (String × FsNode) → String → Option SkillEntry
  | [], _ => none
  | e :: rest, x =>
    match last_write yamlOk rest x with
    | some v => some v
    | none =>
      match entry_write yamlOk e with
      | some (k, v) => if x = k then some v else none
      | none => none

theorem foldl_scan_step_lookup (yamlOk : String → Bool) :
    ∀ (dirs : List (String × FsNode)) (t : SkillTable) (x : String),
      (dirs.foldl (scan_step yamlOk) t) x
        = match last_write yamlOk dirs x with
          | some v => some v
          | none => t x := by
  intro dirs
  induction dirs with
  | nil => intro t x; rfl
  | cons e rest ih =>
    intro t x
    rw [List.foldl_cons, ih, last_write]
    cases hlw : last_write yamlOk rest x with
    | some v => rfl
    | none =>
      rw [scan_step_eq_write]
      cases hew : entry_write yamlOk e with
      | none => rfl
      | some kv =>
        obtain ⟨k, v⟩ := kv
        by_cases hxk : x = k
        · subst hxk
          simp
        · simp [if_neg hxk]

/-- C8: rescanning the Skill Store over an unchanged root is idempotent —
the second scan writes exactly the ids and entries (including the
`contentHash` digest input) the first already wrote, so the resulting
table is identical. -/
theorem scan_skills_idempotent (yamlOk : String → Bool) (root : SkillsRoot)
    (tbl : SkillTable) :
    scan_skills yamlOk root (scan_skills yamlOk root tbl)
      = scan_skills yamlOk root tbl := by
  cases hr : root.rootExists with
  | false => simp [scan_skills, hr]
  | true =>
    simp only [scan_skills, hr, Bool.not_true, Bool.false_eq_true, if_false]
    funext x
    rw [foldl_scan_step_lookup, foldl_scan_step_lookup]
    cases hlw : last_write yamlOk root.dirs x with
    | some v => rfl
    | none => rfl

/-! Dispatch-loop lemmas shared by the orchestration claims. -/

theorem openai_dispatch_none_lengths (exec : ToolExec) :
    ∀ calls rs ds, openai_dispatch exec calls = (none, rs, ds) → rs.length = ds.length := by
  intro calls
  induction calls with
  | nil =>
    intro rs ds h
    cases h
    rfl
  | cons c rest ih =>
    intro rs ds h
    obtain ⟨nm, ar⟩ := c
    rw [openai_dispatch] at h
    by_cases hs : ((exec nm ar).status == "requires_approval") = true
    · rw [if_pos hs] at h
      simp at h
    · rw [Bool.not_eq_true] at hs
      rw [hs] at h
      simp only [Bool.false_eq_true, if_false] at h
      rcases hrec : openai_dispatch exec rest with ⟨ap, rs2, ds2⟩
      rw [hrec] at h
      dsimp only at h
      rw [Prod.mk.injEq, Prod.mk.injEq] at h
      obtain ⟨h1, h2, h3⟩ := h
      subst h1
      subst h2
      subst h3
      simp only [List.length_cons]
      rw [ih rs2 ds2 hrec]

theorem claude_dispatch_none_lengths (exec : ToolExec) :
    ∀ calls rs ds, claude_dispatch exec calls = (none, rs, ds) → rs.length = ds.length := by
  intro calls
  induction calls with
  | nil =>
    intro rs ds h
    cases h
    rfl
  | cons c rest ih =>
    intro rs ds h
    obtain ⟨nm, ar⟩ := c
    rw [claude_dispatch] at h
    by_cases hs : ((exec nm ar).status == "requires_approval") = true
    · rw [if_pos hs] at h
      simp at h
    · rw [Bool.not_eq_true] at hs
      rw [hs] at h
      simp only [Bool.false_eq_true, if_false] at h
      rcases hrec : claude_dispatch exec rest with ⟨ap, rs2, ds2⟩
      rw [hrec] at h
      dsimp only at h
      rw [Prod.mk.injEq, Prod.mk.injEq] at h
      obtain ⟨h1, h2, h3⟩ := h
      subst h1
      subst h2
      subst h3
      simp only [List.length_cons]
      rw [ih rs2 ds2 hrec]

theorem openai_dispatch_first_approval (exec : ToolExec) :
    ∀ (pre post : List (String × String)) (n a : String),
      (∀ c ∈ pre, (exec c.1 c.2).status ≠ "requires_approval") →
      (exec n a).status = "requires_approval" →
      openai_dispatch exec (pre ++ (n, a) :: post)
        = (some (n, riskOf (exec n a), a), pre.map (fun c => exec c.1 c.2), pre ++ [(n, a)]) := by
  intro pre
  induction pre with
  | nil =>
    intro post n a _ happ
    rw [List.nil_append, openai_dispatch]
    have hb : ((exec n a).status == "requires_approval") = true := by
      rw [beq_iff_eq]; exact happ
    rw [hb]
    rfl
  | cons c rest ih =>
    intro post n a hpre happ
    obtain ⟨nm, ar⟩ := c
    rw [List.cons_append, openai_dispatch]
    have hb : ((exec nm ar).status == "requires_approval") = false := by
      rw [beq_eq_false_iff_ne]
      exact hpre (nm, ar) (List.mem_cons_self _ _)
    rw [hb]
    simp only [Bool.false_eq_true, if_false]
    rw [ih post n a (fun c hc => hpre c (List.mem_cons_of_mem _ hc)) happ]
    rfl

theorem claude_dispatch_first_approval (exec : ToolExec) :
    ∀ (pre post : List (String × String)) (n a : String),
      (∀ c ∈ pre, (exec c.1 c.2).status ≠ "requires_approval") →
      (exec n a).status = "requires_approval" →
      claude_dispatch exec (pre ++ (n, a) :: post)
        = (some (n, riskOf (exec n a), a), pre.map (fun c => exec c.1 c.2), pre ++ [(n, a)]) := by
  intro pre
  induction pre with
  | nil =>
    intro post n a _ happ
    rw [List.nil_append, claude_dispatch]
    have hb : ((exec n a).status == "requires_approval") = true := by
      rw [beq_iff_eq]; exact happ
    rw [hb]
    rfl
  | cons c rest ih =>
    intro post n a hpre happ
    obtain ⟨nm, ar⟩ := c
    rw [List.cons_append, claude_dispatch]
    have hb : ((exec nm ar).status == "requires_approval") = false := by
      rw [beq_eq_false_iff_ne]
      exact hpre (nm, ar) (List.mem_cons_self _ _)
    rw [hb]
    simp only [Bool.false_eq_true, if_false]
    rw [ih post n a (fun c hc => hpre c (List.mem_cons_of_mem _ hc)) happ]
    rfl

theorem claude_go_spec (exec : ToolExec) (oracle : Nat → CResp) :
    ∀ (fuel i count : Nat) (ds : List (String × String)) (ars : List ExecRes),
      (claude_chat_go exec oracle i fuel count ds ars).2.roundTrips ≤ i + fuel
      ∧ (count = ds.length →
          countExact (claude_chat_go exec oracle i fuel count ds ars)) := by
  intro fuel
  induction fuel with
  | zero =>
    intro i count ds ars
    rw [claude_chat_go]
    exact ⟨Nat.le_refl i, fun hc => hc⟩
  | succ fuel ih =>
    intro i count ds ars
    rw [claude_chat_go]
    cases horc : oracle i with
    | final text =>
      dsimp only
      exact ⟨by omega, fun hc => hc⟩
    | toolUse blocks =>
      dsimp only
      rcases hdp : claude_dispatch exec blocks with ⟨ap, rs, d⟩
      cases ap with
      | some tr =>
        obtain ⟨name, risk, args⟩ := tr
        dsimp only
        exact ⟨by omega, fun _ => trivial⟩
      | none =>
        dsimp only
        have hb1 := (ih (i + 1) (count + rs.length) (ds ++ d) (ars ++ rs)).1
        refine ⟨by omega, fun hc => ?_⟩
        refine (ih (i + 1) (count + rs.length) (ds ++ d) (ars ++ rs)).2 ?_
        rw [List.length_append, hc,
          claude_dispatch_none_lengths exec blocks rs d hdp]

theorem gemini_go_spec (exec : ToolExec) (oracle : Nat → GResp) :
    ∀ (fuel : Nat) (resp : GResp) (rt count : Nat) (ds : List (String × String))
      (ars : List ExecRes),
      (gemini_chat_go exec oracle resp rt fuel count ds ars).2.roundTrips ≤ rt + fuel
      ∧ (count = ds.length →
          countExact (gemini_chat_go exec oracle resp rt fuel count ds ars)) := by
  intro fuel
  induction fuel with
  | zero =>
    intro resp rt count ds ars
    rw [gemini_chat_go.eq_def]
    dsimp only
    exact ⟨Nat.le_refl rt, fun hc => hc⟩
  | succ fuel ih =>
    intro resp rt count ds ars
    rw [gemini_chat_go.eq_def]
    cases resp with
    | text t =>
      dsimp only
      exact ⟨by omega, fun hc => hc⟩
    | funCall fn_name fn_args =>
      dsimp only
      by_cases hs : ((exec fn_name fn_args).status == "requires_approval") = true
      · rw [if_pos hs]
        refine ⟨?_, fun _ => trivial⟩
        dsimp only
        omega
      · rw [Bool.not_eq_true] at hs
        rw [hs]
        simp only [Bool.false_eq_true, if_false]
        have hb1 := (ih (oracle rt) (rt + 1) (count + 1) (ds ++ [(fn_name, fn_args)])
          (ars ++ [exec fn_name fn_args])).1
        refine ⟨by omega, fun hc => ?_⟩
        refine (ih (oracle rt) (rt + 1) (count + 1) (ds ++ [(fn_name, fn_args)])
          (ars ++ [exec fn_name fn_args])).2 ?_
        rw [List.length_append, hc]
        rfl

/-- C2 (amended): for each of the three adapters the provider round-trip
count on a single turn is bounded — `claude_chat` by `MAX_ITERATIONS`,
`openai_chat` by its fixed two round-trips (hence also by
`MAX_ITERATIONS`), but `gemini_chat` only by `MAX_ITERATIONS + 1` because
its initial `send_message` happens before the bounded loop — and every
returned `tool_calls_made` equals the exact number of tool invocations
dispatched during the turn.  The counterexample
`gemini_chat_exceeds_max_iterations` shows the original uniform
`MAX_ITERATIONS` bound fails for the Gemini adapter. -/
theorem adapters_roundtrip_bounds_and_exact_counts (exec : ToolExec)
    (oc : Nat → CResp) (oo : Nat → OResp) (og : Nat → GResp) :
    ((claude_chat exec oc).2.roundTrips ≤ MAX_ITERATIONS
      ∧ countExact (claude_chat exec oc))
    ∧ ((openai_chat exec oo).2.roundTrips ≤ MAX_ITERATIONS
      ∧ countExact (openai_chat exec oo))
    ∧ ((gemini_chat exec og).2.roundTrips ≤ MAX_ITERATIONS + 1
      ∧ countExact (gemini_chat exec og)) := by
  refine ⟨⟨?_, ?_⟩, ⟨?_, ?_⟩, ⟨?_, ?_⟩⟩
  · exact (claude_go_spec exec oc MAX_ITERATIONS 0 0 [] []).1
  · exact (claude_go_spec exec oc MAX_ITERATIONS 0 0 [] []).2 rfl
  · rw [openai_chat]
    by_cases hc : ((oo 0).finish_tool_calls && !(oo 0).tool_calls.isEmpty) = true
    · rw [if_pos hc]
      rcases hdp : openai_dispatch exec (oo 0).tool_calls with ⟨ap, rs, ds⟩
      cases ap with
      | some tr =>
        obtain ⟨name, risk, args⟩ := tr
        simp [MAX_ITERATIONS]
      | none =>
        simp [MAX_ITERATIONS]
    · rw [Bool.not_eq_true] at hc
      rw [hc]
      simp [MAX_ITERATIONS]
  · rw [openai_chat]
    by_cases hc : ((oo 0).finish_tool_calls && !(oo 0).tool_calls.isEmpty) = true
    · rw [if_pos hc]
      rcases hdp : openai_dispatch exec (oo 0).tool_calls with ⟨ap, rs, ds⟩
      cases ap with
      | some tr =>
        obtain ⟨name, risk, args⟩ := tr
        exact trivial
      | none =>
        exact openai_dispatch_none_lengths exec (oo 0).tool_calls rs ds hdp
    · rw [Bool.not_eq_true] at hc
      rw [hc]
      rfl
  · exact (gemini_go_spec exec og MAX_ITERATIONS (og 0) 1 0 [] []).1
  · exact (gemini_go_spec exec og MAX_ITERATIONS (og 0) 1 0 [] []).2 rfl

/-- A tool executor that always succeeds, and a Gemini oracle that requests
a function call on every response. -/
def always_success_exec : ToolExec := fun _ _ => { status := "success" }

def always_funcall_oracle : Nat → GResp := fun _ => .funCall "t" "\x7b\x7d"

/-- C2 (counterexample): with a provider that keeps requesting function
calls, the Gemini adapter makes `MAX_ITERATIONS + 1 = 11` provider
round-trips on a single turn — the initial `send_message` plus one
function-response `send_message` per loop iteration — exceeding the claimed
`MAX_ITERATIONS` bound. -/
theorem gemini_chat_exceeds_max_iterations :
    (gemini_chat always_success_exec always_funcall_oracle).2.roundTrips
        = MAX_ITERATIONS + 1
    ∧ ¬ ((gemini_chat always_success_exec always_funcall_oracle).2.roundTrips
        ≤ MAX_ITERATIONS) := by
  exact ⟨by decide, by decide⟩

/-- C3: when a provider round requests the calls `pre ++ (n, a) :: post`
and the first call whose execution is tagged `requires_approval` is
`(n, a)`, both the OpenAI and the Claude adapter return immediately with
the approval interrupt `{status, toolName, riskDescription,
pendingArguments}`; the dispatch trace stops at `(n, a)` (no call of
`post` is ever dispatched), and nothing — in particular not the approval
result — is appended to the provider message history as a completed tool
result. -/
theorem requires_approval_halts_round_and_is_not_appended (exec : ToolExec)
    (pre post : List (String × String)) (n a : String)
    (hpre : ∀ c ∈ pre, (exec c.1 c.2).status ≠ "requires_approval")
    (happ : (exec n a).status = "requires_approval")
    (oo : Nat → OResp) (cnt : String)
    (hoo : oo 0 = { finish_tool_calls := true, tool_calls := pre ++ (n, a) :: post,
                    content := cnt })
    (oc : Nat → CResp) (hoc : oc 0 = .toolUse (pre ++ (n, a) :: post)) :
    openai_chat exec oo
      = (.requiresApproval n (riskOf (exec n a)) a,
         { roundTrips := 1, dispatched := pre ++ [(n, a)], appendedResults := [] })
    ∧ claude_chat exec oc
      = (.requiresApproval n (riskOf (exec n a)) a,
         { roundTrips := 1, dispatched := pre ++ [(n, a)], appendedResults := [] }) := by
  have hne : (pre ++ (n, a) :: post).isEmpty = false := by
    cases pre <;> rfl
  constructor
  · rw [openai_chat, hoo]
    try dsimp only
    rw [hne]
    try dsimp only
    rw [openai_dispatch_first_approval exec pre post n a hpre happ]
    rfl
  · rw [claude_chat]
    rw [show MAX_ITERATIONS = 9 + 1 from rfl]
    rw [claude_chat_go, hoc]
    try dsimp only
    rw [claude_dispatch_first_approval exec pre post n a hpre happ]
    try dsimp only
    rw [List.nil_append]

/-- A tool executor that tags the tool `rm` as requiring approval, and
provider oracles requesting three calls with `rm` in the middle. -/
def approval_exec : ToolExec := fun nm _ =>
  if nm = "rm" then { status := "requires_approval", risk_description := some "deletes files" }
  else { status := "success" }

def approval_openai_oracle : Nat → OResp := fun _ =>
  { finish_tool_calls := true,
    tool_calls := [("ls", "x"), ("rm", "y"), ("cat", "z")], content := "done" }

def approval_claude_oracle : Nat → CResp := fun _ =>
  .toolUse [("ls", "x"), ("rm", "y"), ("cat", "z")]

/-- Closed witness for `requires_approval_halts_round_and_is_not_appended`:
of three requested calls the middle one requires approval; both adapters
stop after dispatching two calls and append no tool result. -/
theorem requires_approval_halts_round_witness :
    openai_chat approval_exec approval_openai_oracle
      = (.requiresApproval "rm" (riskOf (approval_exec "rm" "y")) "y",
         { roundTrips := 1, dispatched := [("ls", "x")] ++ [("rm", "y")],
           appendedResults := [] })
    ∧ claude_chat approval_exec approval_claude_oracle
      = (.requiresApproval "rm" (riskOf (approval_exec "rm" "y")) "y",
         { roundTrips := 1, dispatched := [("ls", "x")] ++ [("rm", "y")],
           appendedResults := [] }) :=
  requires_approval_halts_round_and_is_not_appended approval_exec
    [("ls", "x")] [("cat", "z")] "rm" "y"
    (by decide) (by decide) approval_openai_oracle "done" rfl
    approval_claude_oracle rfl

end MCPServer
